import Mathlib

/-!
Verification of the entrypoint generator `build_entrypoint` from
`src/code_gen.rs`.

The Rust function builds one output string by a fixed sequence of
appends.  We embed it as a list of emission pieces (`Piece`), one per
append (consecutive fixed-text appends inside a single statement group
are merged, which is sound since string concatenation is associative),
together with `Piece.render`, which maps each piece to the exact text
the Rust code appends.  `build_entrypoint` is then the in-order
concatenation of the rendered pieces.
-/

/-- One emission step of `build_entrypoint`, in source order. -/
inductive Piece where
  | reactImport
  | liveReloadImport (ref : String)
  | layoutImport (j : Nat) (path : String)
  | componentHeader
  | mountCall
  | returnOpen
  | openTag (i : Nat)
  | closeTag (i : Nat)
  | returnClose
  | componentEnd
  | hydrateImport
  | containerLookup (target : String)
  | hydrateCall
  | serverComment
  | getRTSHeader
  | versionRead
  | versionParse
  | versionBranch (threshold : Nat) (edgePath legacyPath : String)
  | getRTSEnd
  | indexExport
deriving DecidableEq, Repr

/-- `"Layout{i}"`: the local name the generator binds the i-th layout to. -/
def layoutName (i : Nat) : String :=
  "Layout" ++ Nat.repr i

/-- Rust `str::repeat`: `s` repeated `n` times. -/
def repStr (s : String) (n : Nat) : String :=
  String.join (List.replicate n s)

/-- The exact text each piece contributes to the output
(one `entrypoint_content += ...;` group in the Rust source). -/
def Piece.render : Piece → String
  | Piece.reactImport => "import React from \x27react\x27;\n"
  | Piece.liveReloadImport ref => "import mountLiveReload from \x27" ++ ref ++ "\x27;\n\n"
  | Piece.layoutImport j path => "import " ++ layoutName j ++ " from \x27" ++ path ++ "\x27;\n"
  | Piece.componentHeader => "\nconst Entrypoint = () => \x7b\n"
  | Piece.mountCall =>
      "    mountLiveReload(\x7bSSR_RENDERING: process.env.SSR_RENDERING, NODE_ENV: process.env.NODE_ENV, LIVE_RELOAD_PORT: process.env.LIVE_RELOAD_PORT\x7d);\n"
  | Piece.returnOpen => "    return (\n"
  | Piece.openTag i => repStr "        " (i + 1) ++ "<" ++ layoutName i ++ ">\n"
  | Piece.closeTag i => repStr "        " (i + 1) ++ "</" ++ layoutName i ++ ">\n"
  | Piece.returnClose => "    );\n"
  | Piece.componentEnd => "\x7d;\n\n"
  | Piece.hydrateImport => "import \x7b hydrateRoot \x7d from \x27react-dom/client\x27;\n"
  | Piece.containerLookup target =>
      "const container = document.getElementById(\x27" ++ target ++ "\x27);\n"
  | Piece.hydrateCall => "hydrateRoot(container, <Entrypoint />);\n"
  | Piece.serverComment => "// Dynamically import renderToString based on React version\n"
  | Piece.getRTSHeader => "async function getRenderToString() \x7b\n"
  | Piece.versionRead => "  const reactVersion = React.version;\n"
  | Piece.versionParse => "  const majorVersion = parseInt(reactVersion.split(\x27.\x27)[0], 10);\n\n"
  | Piece.versionBranch t edgePath legacyPath =>
      "  if (majorVersion >= " ++ Nat.repr t ++ ") \x7b\n" ++
      "    return (await import(\x27" ++ edgePath ++ "\x27)).renderToString;\n" ++
      "  \x7d else \x7b\n" ++
      "    return (await import(\x27" ++ legacyPath ++ "\x27)).renderToString;\n" ++
      "  \x7d\n"
  | Piece.getRTSEnd => "\x7d\n\n"
  | Piece.indexExport =>
      "export const Index = async () => \x7b\n" ++
      "  const renderToString = await getRenderToString();\n" ++
      "  return renderToString(<Entrypoint />);\n" ++
      "\x7d;\n"

/-- Pieces shared by both modes: everything the Rust code appends before
the `if !is_server` branch (preamble, layout imports, the whole
`Entrypoint` declaration). -/
def commonPieces (path_group : List String) (live_reload_import : String) : List Piece :=
  [Piece.reactImport, Piece.liveReloadImport live_reload_import]
  ++ path_group.enum.map (fun jp => Piece.layoutImport jp.1 jp.2)
  ++ [Piece.componentHeader, Piece.mountCall, Piece.returnOpen]
  ++ (List.range path_group.length).map Piece.openTag
  ++ (List.range path_group.length).reverse.map Piece.closeTag
  ++ [Piece.returnClose, Piece.componentEnd]

/-- Client bootstrap tail (the `if !is_server` branch of the source). -/
def clientTailPieces : List Piece :=
  [Piece.hydrateImport, Piece.containerLookup "root", Piece.hydrateCall]

/-- Server tail (the `else` branch of the source). -/
def serverTailPieces : List Piece :=
  [Piece.serverComment, Piece.getRTSHeader, Piece.versionRead, Piece.versionParse,
   Piece.versionBranch 19 "react-dom/server.edge" "react-dom/server",
   Piece.getRTSEnd, Piece.indexExport]

/-- Mode-specific tail, mirroring `if !is_server { ... } else { ... }`. -/
def tailPieces (is_server : Bool) : List Piece :=
  if !is_server then clientTailPieces else serverTailPieces

/-- Full emission sequence of `build_entrypoint`. -/
def buildPieces (path_group : List String) (is_server : Bool)
    (live_reload_import : String) : List Piece :=
  commonPieces path_group live_reload_import ++ tailPieces is_server

/-- In-order concatenation of rendered pieces (the `+=` accumulation). -/
def renderPieces : List Piece → String
  | [] => ""
  | p :: rest => p.render ++ renderPieces rest

/-- `build_entrypoint` from `src/code_gen.rs`: the generated entrypoint text. -/
def build_entrypoint (path_group : List String) (is_server : Bool)
    (live_reload_import : String) : String :=
  renderPieces (buildPieces path_group is_server live_reload_import)


/-! ### Extraction helpers over emission sequences -/

/-- Index carried by an opening layout tag piece, if any. -/
def openIdxOf : Piece → Option Nat
  | Piece.openTag i => some i
  | _ => none

/-- Index carried by a closing layout tag piece, if any. -/
def closeIdxOf : Piece → Option Nat
  | Piece.closeTag i => some i
  | _ => none

/-- Tag piece as `(isOpen, index)`, if any. -/
def tagOf : Piece → Option (Bool × Nat)
  | Piece.openTag i => some (true, i)
  | Piece.closeTag i => some (false, i)
  | _ => none

/-- `(index, path)` of a layout import piece, if any. -/
def bindingOf : Piece → Option (Nat × String)
  | Piece.layoutImport j path => some (j, path)
  | _ => none

/-- Reference of a live-reload import piece, if any. -/
def liveReloadRefOf : Piece → Option String
  | Piece.liveReloadImport r => some r
  | _ => none

/-- `(threshold, edge path, legacy path)` of a version branch piece, if any. -/
def versionBranchOf : Piece → Option (Nat × String × String)
  | Piece.versionBranch t e g => some (t, e, g)
  | _ => none

def isMountCall : Piece → Bool
  | Piece.mountCall => true
  | _ => false

def isIndexExport : Piece → Bool
  | Piece.indexExport => true
  | _ => false

def isVersionParse : Piece → Bool
  | Piece.versionParse => true
  | _ => false

/-- Client-bootstrap statements: hydration import, container lookup, hydrate call. -/
def isHydrateStmt : Piece → Bool
  | Piece.hydrateImport => true
  | Piece.containerLookup _ => true
  | Piece.hydrateCall => true
  | _ => false

/-- The sequence of opening-tag indices, in emission order. -/
def openIndices (l : List Piece) : List Nat := l.filterMap openIdxOf

/-- The sequence of closing-tag indices, in emission order. -/
def closeIndices (l : List Piece) : List Nat := l.filterMap closeIdxOf

/-- The sequence of all tag events `(isOpen, index)`, in emission order. -/
def tagTrace (l : List Piece) : List (Bool × Nat) := l.filterMap tagOf

/-- The `(index, path)` pairs of all layout import statements, in order. -/
def layoutBindings (l : List Piece) : List (Nat × String) := l.filterMap bindingOf

/-! ### Generic list computation lemmas -/

lemma filterMap_map_eq_nil {α β γ : Type} (f : γ → Option β) (g : α → γ) (l : List α)
    (h : ∀ a, f (g a) = none) : (l.map g).filterMap f = [] := by
  induction l with
  | nil => rfl
  | cons x t ih => simp [List.filterMap_cons, h, ih]

lemma filterMap_map_eq_map {α β γ : Type} (f : γ → Option β) (g : α → γ) (k : α → β)
    (l : List α) (h : ∀ a, f (g a) = some (k a)) : (l.map g).filterMap f = l.map k := by
  induction l with
  | nil => rfl
  | cons x t ih => simp [List.filterMap_cons, h, ih]

lemma filter_map_eq_nil {α γ : Type} (p : γ → Bool) (g : α → γ) (l : List α)
    (h : ∀ a, p (g a) = false) : (l.map g).filter p = [] := by
  induction l with
  | nil => rfl
  | cons x t ih => simp [List.filter_cons, h, ih]

lemma filterMap_comp_eq_map {α β γ : Type} (f : γ → Option β) (g : α → γ) (k : α → β)
    (l : List α) (h : ∀ a, f (g a) = some (k a)) : l.filterMap (f ∘ g) = l.map k := by
  induction l with
  | nil => rfl
  | cons x t ih => simp [List.filterMap_cons, Function.comp, h, ih]

/-! ### Shape of the emission sequence -/

lemma openIndices_buildPieces (pg : List String) (s : Bool) (lr : String) :
    openIndices (buildPieces pg s lr) = List.range pg.length := by
  have h1 : (pg.enum.map (fun jp => Piece.layoutImport jp.1 jp.2)).filterMap openIdxOf = [] :=
    filterMap_map_eq_nil _ _ _ (fun a => rfl)
  have h2 : ((List.range pg.length).map Piece.openTag).filterMap openIdxOf
      = (List.range pg.length).map id :=
    filterMap_map_eq_map _ _ id _ (fun a => rfl)
  have h3 : ((List.range pg.length).reverse.map Piece.closeTag).filterMap openIdxOf = [] :=
    filterMap_map_eq_nil _ _ _ (fun a => rfl)
  cases s <;>
    simp [openIndices, buildPieces, commonPieces, tailPieces, clientTailPieces,
      serverTailPieces, List.filterMap_append, List.filterMap_cons, openIdxOf, h1, h2, h3]

lemma closeIndices_buildPieces (pg : List String) (s : Bool) (lr : String) :
    closeIndices (buildPieces pg s lr) = (List.range pg.length).reverse := by
  have h1 : (pg.enum.map (fun jp => Piece.layoutImport jp.1 jp.2)).filterMap closeIdxOf = [] :=
    filterMap_map_eq_nil _ _ _ (fun a => rfl)
  have h2 : ((List.range pg.length).map Piece.openTag).filterMap closeIdxOf = [] :=
    filterMap_map_eq_nil _ _ _ (fun a => rfl)
  have h3 : (List.range pg.length).filterMap (closeIdxOf ∘ Piece.closeTag)
      = (List.range pg.length).map id :=
    filterMap_comp_eq_map _ _ id _ (fun a => rfl)
  cases s <;>
    simp [closeIndices, buildPieces, commonPieces, tailPieces, clientTailPieces,
      serverTailPieces, List.filterMap_append, List.filterMap_cons, closeIdxOf, h1, h2, h3]

lemma tagTrace_buildPieces (pg : List String) (s : Bool) (lr : String) :
    tagTrace (buildPieces pg s lr)
      = (List.range pg.length).map (fun i => (true, i))
        ++ (List.range pg.length).reverse.map (fun i => (false, i)) := by
  have h1 : (pg.enum.map (fun jp => Piece.layoutImport jp.1 jp.2)).filterMap tagOf = [] :=
    filterMap_map_eq_nil _ _ _ (fun a => rfl)
  have h2 : ((List.range pg.length).map Piece.openTag).filterMap tagOf
      = (List.range pg.length).map (fun i => (true, i)) :=
    filterMap_map_eq_map _ _ (fun i => (true, i)) _ (fun a => rfl)
  have h3 : (List.range pg.length).filterMap (tagOf ∘ Piece.closeTag)
      = (List.range pg.length).map (fun i => (false, i)) :=
    filterMap_comp_eq_map _ _ (fun i => (false, i)) _ (fun a => rfl)
  cases s <;>
    simp [tagTrace, buildPieces, commonPieces, tailPieces, clientTailPieces,
      serverTailPieces, List.filterMap_append, List.filterMap_cons, tagOf, h1, h2, h3]

lemma layoutBindings_buildPieces (pg : List String) (s : Bool) (lr : String) :
    layoutBindings (buildPieces pg s lr) = pg.enum := by
  have h1 : (pg.enum.map (fun jp => Piece.layoutImport jp.1 jp.2)).filterMap bindingOf
      = pg.enum.map id :=
    filterMap_map_eq_map _ _ id _ (fun a => rfl)
  have h2 : ((List.range pg.length).map Piece.openTag).filterMap bindingOf = [] :=
    filterMap_map_eq_nil _ _ _ (fun a => rfl)
  have h3 : ((List.range pg.length).reverse.map Piece.closeTag).filterMap bindingOf = [] :=
    filterMap_map_eq_nil _ _ _ (fun a => rfl)
  cases s <;>
    simp [layoutBindings, buildPieces, commonPieces, tailPieces, clientTailPieces,
      serverTailPieces, List.filterMap_append, List.filterMap_cons, bindingOf, h1, h2, h3]

lemma liveReloadRefs_buildPieces (pg : List String) (s : Bool) (lr : String) :
    (buildPieces pg s lr).filterMap liveReloadRefOf = [lr] := by
  have h1 : (pg.enum.map (fun jp => Piece.layoutImport jp.1 jp.2)).filterMap liveReloadRefOf
      = [] := filterMap_map_eq_nil _ _ _ (fun a => rfl)
  have h2 : ((List.range pg.length).map Piece.openTag).filterMap liveReloadRefOf = [] :=
    filterMap_map_eq_nil _ _ _ (fun a => rfl)
  have h3 : ((List.range pg.length).reverse.map Piece.closeTag).filterMap liveReloadRefOf
      = [] := filterMap_map_eq_nil _ _ _ (fun a => rfl)
  cases s <;>
    simp [buildPieces, commonPieces, tailPieces, clientTailPieces,
      serverTailPieces, List.filterMap_append, List.filterMap_cons, liveReloadRefOf, h1, h2, h3]

lemma mountCalls_buildPieces (pg : List String) (s : Bool) (lr : String) :
    (buildPieces pg s lr).filter isMountCall = [Piece.mountCall] := by
  have h1 : (pg.enum.map (fun jp => Piece.layoutImport jp.1 jp.2)).filter isMountCall = [] :=
    filter_map_eq_nil _ _ _ (fun a => rfl)
  have h2 : ((List.range pg.length).map Piece.openTag).filter isMountCall = [] :=
    filter_map_eq_nil _ _ _ (fun a => rfl)
  have h3 : ((List.range pg.length).reverse.map Piece.closeTag).filter isMountCall = [] :=
    filter_map_eq_nil _ _ _ (fun a => rfl)
  cases s <;>
    simp [buildPieces, commonPieces, tailPieces, clientTailPieces,
      serverTailPieces, List.filter_append, List.filter_cons, isMountCall, h1, h2, h3]

/-! ### Decimal representation: `Nat.repr` is injective -/

/-- Numeric value of a decimal digit character. -/
def digitVal (c : Char) : Nat := c.toNat - 48

/-- Value of a decimal digit string (most significant digit first). -/
def decimalVal (cs : List Char) : Nat :=
  cs.foldl (fun a c => 10 * a + digitVal c) 0

lemma decimalVal_foldl (cs : List Char) : ∀ a : Nat,
    cs.foldl (fun x c => 10 * x + digitVal c) a = a * 10 ^ cs.length + decimalVal cs := by
  induction cs with
  | nil => intro a; simp [decimalVal]
  | cons c t ih =>
    intro a
    simp only [List.foldl_cons, decimalVal, List.length_cons]
    rw [ih (10 * a + digitVal c), ih (10 * 0 + digitVal c)]
    ring

lemma decimalVal_cons (c : Char) (cs : List Char) :
    decimalVal (c :: cs) = digitVal c * 10 ^ cs.length + decimalVal cs := by
  have h := decimalVal_foldl cs (10 * 0 + digitVal c)
  simpa [decimalVal] using h

lemma digitVal_digitChar (m : Nat) (h : m < 10) : digitVal (Nat.digitChar m) = m := by
  interval_cases m <;> rfl

lemma decimalVal_toDigitsCore (f : Nat) : ∀ (n : Nat) (acc : List Char), n < f →
    decimalVal (Nat.toDigitsCore 10 f n acc) = n * 10 ^ acc.length + decimalVal acc := by
  induction f with
  | zero => intro n acc h; exact absurd h (Nat.not_lt_zero n)
  | succ f ih =>
    intro n acc h
    by_cases h10 : n / 10 = 0
    · have hn : n < 10 := by omega
      have hred : Nat.toDigitsCore 10 (f + 1) n acc = Nat.digitChar (n % 10) :: acc := by
        simp [Nat.toDigitsCore, h10]
      rw [hred, decimalVal_cons, digitVal_digitChar (n % 10) (Nat.mod_lt n (by norm_num)),
        Nat.mod_eq_of_lt hn]
    · have hlt : n / 10 < f := by omega
      have hred : Nat.toDigitsCore 10 (f + 1) n acc
          = Nat.toDigitsCore 10 f (n / 10) (Nat.digitChar (n % 10) :: acc) := by
        simp [Nat.toDigitsCore, h10]
      rw [hred, ih (n / 10) (Nat.digitChar (n % 10) :: acc) hlt, decimalVal_cons,
        digitVal_digitChar (n % 10) (Nat.mod_lt n (by omega))]
      obtain ⟨q, r, hqr, hr⟩ : ∃ q r, n = 10 * q + r ∧ r < 10 :=
        ⟨n / 10, n % 10, (Nat.div_add_mod n 10).symm, Nat.mod_lt n (by omega)⟩
      have hq : n / 10 = q := by omega
      have hrr : n % 10 = r := by omega
      subst hqr
      rw [hq, hrr, List.length_cons, pow_succ]
      ring

lemma decimalVal_toDigits (n : Nat) : decimalVal (Nat.toDigits 10 n) = n := by
  have h := decimalVal_toDigitsCore (n + 1) n [] (Nat.lt_succ_self n)
  simpa [Nat.toDigits, decimalVal] using h

lemma natRepr_inj (m n : Nat) (h : Nat.repr m = Nat.repr n) : m = n := by
  have hd : Nat.toDigits 10 m = Nat.toDigits 10 n := congrArg String.data h
  have hv := congrArg decimalVal hd
  rwa [decimalVal_toDigits, decimalVal_toDigits] at hv

lemma layoutName_inj (i j : Nat) (h : layoutName i = layoutName j) : i = j := by
  apply natRepr_inj
  have hd : ("Layout" : String).data ++ (Nat.repr i).data
      = ("Layout" : String).data ++ (Nat.repr j).data := by
    have h2 := congrArg String.data h
    simpa [layoutName, String.data_append] using h2
  have h3 : (Nat.repr i).data = (Nat.repr j).data := List.append_cancel_left hd
  exact congrArg List.asString h3

/-! ### Output string structure -/

lemma renderPieces_append (a b : List Piece) :
    renderPieces (a ++ b) = renderPieces a ++ renderPieces b := by
  induction a with
  | nil => simp [renderPieces]
  | cons x t ih => simp [renderPieces, ih, String.append_assoc]

lemma string_append_ne_empty_left (a b : String) (h : a ≠ "") : a ++ b ≠ "" := by
  intro hab
  apply h
  have hd : a.data ++ b.data = [] := congrArg String.data hab
  have ha : a.data = [] := (List.append_eq_nil.mp hd).1
  exact String.ext ha

lemma buildPieces_head (pg : List String) (s : Bool) (lr : String) :
    ∃ rest, buildPieces pg s lr = Piece.reactImport :: rest := ⟨_, rfl⟩

lemma build_entrypoint_nonempty (pg : List String) (s : Bool) (lr : String) :
    build_entrypoint pg s lr ≠ "" := by
  obtain ⟨rest, hrest⟩ := buildPieces_head pg s lr
  unfold build_entrypoint
  rw [hrest]
  show Piece.render Piece.reactImport ++ renderPieces rest ≠ ""
  exact string_append_ne_empty_left _ _ (by decide)

/-! ### Balanced-delimiter check for generated text -/

/-- Scan characters with a stack of open delimiters; only `()`, curly
braces and `[]` are tracked. -/
def delimScan : List Char → List Char → Bool
  | stack, [] => stack.isEmpty
  | stack, c :: rest =>
    if c = '(' ∨ c = '\x7b' ∨ c = '[' then delimScan (c :: stack) rest
    else if c = ')' then
      match stack with
      | '(' :: st => delimScan st rest
      | _ => false
    else if c = '\x7d' then
      match stack with
      | '\x7b' :: st => delimScan st rest
      | _ => false
    else if c = ']' then
      match stack with
      | '[' :: st => delimScan st rest
      | _ => false
    else delimScan stack rest

/-- All parentheses, curly braces and square brackets of `s` are balanced. -/
def delimBalanced (s : String) : Bool := delimScan [] s.data

lemma versionBranches_buildPieces_server (pg : List String) (lr : String) :
    (buildPieces pg true lr).filterMap versionBranchOf
      = [(19, "react-dom/server.edge", "react-dom/server")] := by
  have h1 : (pg.enum.map (fun jp => Piece.layoutImport jp.1 jp.2)).filterMap versionBranchOf
      = [] := filterMap_map_eq_nil _ _ _ (fun a => rfl)
  have h2 : ((List.range pg.length).map Piece.openTag).filterMap versionBranchOf = [] :=
    filterMap_map_eq_nil _ _ _ (fun a => rfl)
  have h3 : ((List.range pg.length).reverse.map Piece.closeTag).filterMap versionBranchOf
      = [] := filterMap_map_eq_nil _ _ _ (fun a => rfl)
  simp [buildPieces, commonPieces, tailPieces, serverTailPieces,
    List.filterMap_append, List.filterMap_cons, versionBranchOf, h1, h2, h3]

lemma versionParses_buildPieces_server (pg : List String) (lr : String) :
    (buildPieces pg true lr).filter isVersionParse = [Piece.versionParse] := by
  have h1 : (pg.enum.map (fun jp => Piece.layoutImport jp.1 jp.2)).filter isVersionParse
      = [] := filter_map_eq_nil _ _ _ (fun a => rfl)
  have h2 : ((List.range pg.length).map Piece.openTag).filter isVersionParse = [] :=
    filter_map_eq_nil _ _ _ (fun a => rfl)
  have h3 : ((List.range pg.length).reverse.map Piece.closeTag).filter isVersionParse
      = [] := filter_map_eq_nil _ _ _ (fun a => rfl)
  simp [buildPieces, commonPieces, tailPieces, serverTailPieces,
    List.filter_append, List.filter_cons, isVersionParse, h1, h2, h3]

lemma indexExports_buildPieces_client (pg : List String) (lr : String) :
    (buildPieces pg false lr).filter isIndexExport = [] := by
  have h1 : (pg.enum.map (fun jp => Piece.layoutImport jp.1 jp.2)).filter isIndexExport
      = [] := filter_map_eq_nil _ _ _ (fun a => rfl)
  have h2 : ((List.range pg.length).map Piece.openTag).filter isIndexExport = [] :=
    filter_map_eq_nil _ _ _ (fun a => rfl)
  have h3 : ((List.range pg.length).reverse.map Piece.closeTag).filter isIndexExport
      = [] := filter_map_eq_nil _ _ _ (fun a => rfl)
  simp [buildPieces, commonPieces, tailPieces, clientTailPieces,
    List.filter_append, List.filter_cons, isIndexExport, h1, h2, h3]

lemma indexExports_buildPieces_server (pg : List String) (lr : String) :
    (buildPieces pg true lr).filter isIndexExport = [Piece.indexExport] := by
  have h1 : (pg.enum.map (fun jp => Piece.layoutImport jp.1 jp.2)).filter isIndexExport
      = [] := filter_map_eq_nil _ _ _ (fun a => rfl)
  have h2 : ((List.range pg.length).map Piece.openTag).filter isIndexExport = [] :=
    filter_map_eq_nil _ _ _ (fun a => rfl)
  have h3 : ((List.range pg.length).reverse.map Piece.closeTag).filter isIndexExport
      = [] := filter_map_eq_nil _ _ _ (fun a => rfl)
  simp [buildPieces, commonPieces, tailPieces, serverTailPieces,
    List.filter_append, List.filter_cons, isIndexExport, h1, h2, h3]

lemma hydrateStmts_buildPieces_server (pg : List String) (lr : String) :
    (buildPieces pg true lr).filter isHydrateStmt = [] := by
  have h1 : (pg.enum.map (fun jp => Piece.layoutImport jp.1 jp.2)).filter isHydrateStmt
      = [] := filter_map_eq_nil _ _ _ (fun a => rfl)
  have h2 : ((List.range pg.length).map Piece.openTag).filter isHydrateStmt = [] :=
    filter_map_eq_nil _ _ _ (fun a => rfl)
  have h3 : ((List.range pg.length).reverse.map Piece.closeTag).filter isHydrateStmt
      = [] := filter_map_eq_nil _ _ _ (fun a => rfl)
  simp [buildPieces, commonPieces, tailPieces, serverTailPieces,
    List.filter_append, List.filter_cons, isHydrateStmt, h1, h2, h3]

/-! ### Claims -/

/-- C1: for every layout chain of length N, any render mode and any
live-reload reference, the emission sequence of `build_entrypoint`
contains exactly N opening layout tags and exactly N closing layout
tags, and the sequence of closing-tag indices is the exact reverse of
the sequence of opening-tag indices (stack-balanced nesting). -/
theorem build_entrypoint_tag_balance (pg : List String) (s : Bool) (lr : String) :
    (openIndices (buildPieces pg s lr)).length = pg.length ∧
    (closeIndices (buildPieces pg s lr)).length = pg.length ∧
    closeIndices (buildPieces pg s lr) = (openIndices (buildPieces pg s lr)).reverse := by
  rw [openIndices_buildPieces pg s lr, closeIndices_buildPieces pg s lr]
  exact ⟨List.length_range _, by simp, rfl⟩

set_option maxRecDepth 10000 in
/-- C2: server-mode output contains exactly one version-threshold branch,
parsing the leading integer of the runtime-reported React version and
comparing it against 19, choosing the import path
`react-dom/server.edge` for major version at least 19 and the legacy
path `react-dom/server` otherwise; exactly two distinct import paths,
one decision point. -/
theorem build_entrypoint_version_threshold (pg : List String) (lr : String) :
    (buildPieces pg true lr).filterMap versionBranchOf
      = [(19, "react-dom/server.edge", "react-dom/server")] ∧
    (buildPieces pg true lr).filter isVersionParse = [Piece.versionParse] ∧
    ("react-dom/server.edge" : String) ≠ "react-dom/server" ∧
    Piece.render Piece.versionParse
      = "  const majorVersion = parseInt(reactVersion.split(\x27.\x27)[0], 10);\n\n" ∧
    Piece.render (Piece.versionBranch 19 "react-dom/server.edge" "react-dom/server")
      = "  if (majorVersion >= 19) \x7b\n"
        ++ "    return (await import(\x27react-dom/server.edge\x27)).renderToString;\n"
        ++ "  \x7d else \x7b\n"
        ++ "    return (await import(\x27react-dom/server\x27)).renderToString;\n"
        ++ "  \x7d\n" := by
  refine ⟨versionBranches_buildPieces_server pg lr, versionParses_buildPieces_server pg lr,
    by decide, rfl, by decide⟩

/-- C3: client-mode output never contains the server-mode exported async
`Index` function, and server-mode output never contains the client-mode
hydration statements: the two tail sections are mutually exclusive. -/
theorem build_entrypoint_mode_exclusive (pg : List String) (lr : String) :
    (buildPieces pg false lr).filter isIndexExport = [] ∧
    (buildPieces pg true lr).filter isHydrateStmt = [] :=
  ⟨indexExports_buildPieces_client pg lr, hydrateStmts_buildPieces_server pg lr⟩

set_option maxRecDepth 10000 in
/-- C4: for the empty chain, with either mode and any live-reload
reference, the output has no layout import statements and no nested
tags, the composed component body degenerates to an empty markup
section (`returnOpen` immediately followed by `returnClose`), and the
generated text keeps its delimiters balanced. -/
theorem build_entrypoint_empty_chain (s : Bool) (lr : String) :
    layoutBindings (buildPieces [] s lr) = [] ∧
    tagTrace (buildPieces [] s lr) = [] ∧
    commonPieces [] lr
      = [Piece.reactImport, Piece.liveReloadImport lr, Piece.componentHeader,
         Piece.mountCall, Piece.returnOpen, Piece.returnClose, Piece.componentEnd] ∧
    delimBalanced (build_entrypoint [] s "./live_reload") = true := by
  refine ⟨?_, ?_, rfl, ?_⟩
  · simpa using layoutBindings_buildPieces [] s lr
  · simpa using tagTrace_buildPieces [] s lr
  · cases s <;> decide

/-- C5: in both modes the output contains exactly one import of the
live-reload reference and exactly one invocation of its mount function,
and that invocation forwards exactly the three configuration fields
(SSR flag, environment mode, live-reload port) as runtime environment
lookups. -/
theorem build_entrypoint_live_reload_wiring (pg : List String) (s : Bool) (lr : String) :
    (buildPieces pg s lr).filterMap liveReloadRefOf = [lr] ∧
    (buildPieces pg s lr).filter isMountCall = [Piece.mountCall] ∧
    Piece.render Piece.mountCall
      = "    mountLiveReload(\x7bSSR_RENDERING: process.env.SSR_RENDERING, NODE_ENV: process.env.NODE_ENV, LIVE_RELOAD_PORT: process.env.LIVE_RELOAD_PORT\x7d);\n" :=
  ⟨liveReloadRefs_buildPieces pg s lr, mountCalls_buildPieces pg s lr, rfl⟩

/-- C6: the composed tree nests the layouts in chain order: the tag trace
opens index 0 first, then 1, ..., then N-1, and closes them in exact
reverse order, so the element for index i directly wraps the element
for index i+1; for chain `["./A", "./B"]` with server mode on, element
1 nests inside element 0 exactly once and the exported `Index` function
appears exactly once. -/
theorem build_entrypoint_nesting_order (pg : List String) (s : Bool) (lr : String) :
    tagTrace (buildPieces pg s lr)
      = (List.range pg.length).map (fun i => (true, i))
        ++ (List.range pg.length).reverse.map (fun i => (false, i)) ∧
    tagTrace (buildPieces ["./A", "./B"] true lr)
      = [(true, 0), (true, 1), (false, 1), (false, 0)] ∧
    (buildPieces ["./A", "./B"] true lr).filter isIndexExport = [Piece.indexExport] :=
  ⟨tagTrace_buildPieces pg s lr, rfl, rfl⟩

/-- C7: the i-th chain entry is bound by an import statement to the local
name `Layout{i}`, a pure function of the positional index, and names of
distinct positions are pairwise distinct. -/
theorem build_entrypoint_layout_naming (pg : List String) (s : Bool) (lr : String) :
    layoutBindings (buildPieces pg s lr) = pg.enum ∧
    (∀ j path, Piece.render (Piece.layoutImport j path)
        = "import " ++ layoutName j ++ " from \x27" ++ path ++ "\x27;\n") ∧
    ∀ i j : Nat, i ≠ j → layoutName i ≠ layoutName j := by
  refine ⟨layoutBindings_buildPieces pg s lr, fun j path => rfl, ?_⟩
  intro i j hij hname
  exact hij (layoutName_inj i j hname)

theorem build_entrypoint_layout_naming_witness : layoutName 0 ≠ layoutName 1 :=
  (build_entrypoint_layout_naming [] false "./lr").2.2 0 1 (by decide)

/-- C8: `build_entrypoint` is total and deterministic: it returns a
(nonempty) string for every input, and equal inputs give equal outputs. -/
theorem build_entrypoint_total_deterministic (pg pg2 : List String) (s s2 : Bool)
    (lr lr2 : String) (h1 : pg = pg2) (h2 : s = s2) (h3 : lr = lr2) :
    build_entrypoint pg s lr = build_entrypoint pg2 s2 lr2 ∧
    build_entrypoint pg s lr ≠ "" := by
  subst h1; subst h2; subst h3
  exact ⟨rfl, build_entrypoint_nonempty pg s lr⟩

theorem build_entrypoint_total_deterministic_witness :
    build_entrypoint ["./A"] true "./lr" = build_entrypoint ["./A"] true "./lr" ∧
    build_entrypoint ["./A"] true "./lr" ≠ "" :=
  build_entrypoint_total_deterministic ["./A"] ["./A"] true true "./lr" "./lr" rfl rfl rfl

set_option maxRecDepth 10000 in
/-- C9: client-mode output ends with top-level bootstrap statements (after
the component declaration): the hydration import, the lookup of the
fixed mount target `"root"`, and the hydrate call, and contains no
async `Index` export; the `["./Layout"]` example produces exactly the
expected emission sequence and its text ends with the hydrate call. -/
theorem build_entrypoint_client_bootstrap (pg : List String) (lr : String) :
    buildPieces pg false lr
      = commonPieces pg lr
        ++ [Piece.hydrateImport, Piece.containerLookup "root", Piece.hydrateCall] ∧
    (buildPieces pg false lr).filter isIndexExport = [] ∧
    buildPieces ["./Layout"] false "./lr"
      = [Piece.reactImport, Piece.liveReloadImport "./lr", Piece.layoutImport 0 "./Layout",
         Piece.componentHeader, Piece.mountCall, Piece.returnOpen, Piece.openTag 0,
         Piece.closeTag 0, Piece.returnClose, Piece.componentEnd, Piece.hydrateImport,
         Piece.containerLookup "root", Piece.hydrateCall] ∧
    ∃ p : String, build_entrypoint ["./Layout"] false "./lr"
        = p ++ "hydrateRoot(container, <Entrypoint />);\n" := by
  refine ⟨rfl, indexExports_buildPieces_client pg lr, rfl, ?_⟩
  exact ⟨renderPieces
      [Piece.reactImport, Piece.liveReloadImport "./lr", Piece.layoutImport 0 "./Layout",
       Piece.componentHeader, Piece.mountCall, Piece.returnOpen, Piece.openTag 0,
       Piece.closeTag 0, Piece.returnClose, Piece.componentEnd, Piece.hydrateImport,
       Piece.containerLookup "root"], by decide⟩

/-- C10: for every chain and live-reload reference, the two mode outputs
agree on the rendered common part (everything up to and including the
end of the `Entrypoint` declaration); the render-mode flag only selects
the appended tail. -/
theorem build_entrypoint_mode_common_part (pg : List String) (lr : String) :
    build_entrypoint pg true lr
      = renderPieces (commonPieces pg lr) ++ renderPieces (tailPieces true) ∧
    build_entrypoint pg false lr
      = renderPieces (commonPieces pg lr) ++ renderPieces (tailPieces false) :=
  ⟨renderPieces_append _ _, renderPieces_append _ _⟩
